import Mathlib

/-!
Shallow embedding of the MCP-adapter tool layer (`src/tools.ts`):
the embedded-resource resolver, the call-result converter, the tool
invoker and the tool-catalog loader, together with proofs of the
behavioural properties stated in the specification.

JavaScript conventions modelled explicitly:
* optional / possibly-absent string fields are `Option String`;
* JS truthiness of such a field (`undefined`, `null` and `""` are
  falsy) is `jsTruthy`;
* `Array.prototype.join` turns `undefined` entries into `""` while
  keeping the separator, which `blockJoinText` reproduces;
* thrown exceptions are `Except` errors.
-/

namespace McpAdapters

/-- JS truthiness of an optional string field: absent and `""` are falsy. -/
def jsTruthy : Option String → Bool
  | none => false
  | some s => s ≠ ""

/-- One part of a `ReadResourceResult.contents` array: the inner
`resource` payload `{uri, text?, blob?}`. -/
structure ResourceContents where
  uri : String
  text : Option String := none
  blob : Option String := none
deriving Repr, DecidableEq

/-- An `EmbeddedResource` content block as `_embeddedResourceToArtifact`
sees it: the code tests `resource.blob`, `resource.text` and
`resource.uri` on the wrapper object itself, while the read request uses
the inner `resource.resource.uri`; both layers are therefore modelled. -/
structure EmbeddedResource where
  uri : Option String := none
  text : Option String := none
  blob : Option String := none
  resource : ResourceContents
deriving Repr, DecidableEq

/-- A content block of a `CallToolResult`.  Besides the three declared
kinds the wire value may carry any other `type` tag (`other`), possibly
with a `text` field of its own. -/
inductive ContentBlock where
  | text (s : String)
  | image (mimeType data : String)
  | resource (r : EmbeddedResource)
  | other (tag : String) (textField : Option String)
deriving Repr, DecidableEq

/-- The `type` tag of a block, as interpolated into error messages. -/
def ContentBlock.tag : ContentBlock → String
  | .text _ => "text"
  | .image _ _ => "image"
  | .resource _ => "resource"
  | .other t _ => t

/-- The field `content.text` as read by the `isError` branch
(`result.content.map((content) => content.text)`): blocks without a
`text` field yield `undefined`, which `Array.prototype.join` renders as
the empty string. -/
def ContentBlock.joinText : ContentBlock → String
  | .text s => s
  | .image _ _ => ""
  | .resource r => r.text.getD ""
  | .other _ tf => tf.getD ""

/-- The `content` field of the raw result: either an actual array of
blocks or some other JS value, of which only `typeof` is relevant. -/
inductive RawContent where
  | arr (blocks : List ContentBlock)
  | nonArray (typeName : String)
deriving Repr, DecidableEq

/-- The raw `CallToolResult` as received from the transport: possibly
absent (`!result`), otherwise `content` plus the `isError` flag. -/
inductive RawResult where
  | undef
  | mk (content : RawContent) (isError : Bool)
deriving Repr, DecidableEq

/-- The `ToolException` error class: a `name` discriminator (set to
`"ToolException"` by the constructor) and a message. -/
structure ToolException where
  name : String
  message : String
deriving Repr, DecidableEq

/-- Constructor call `new ToolException(message)`. -/
def mkToolException (message : String) : ToolException :=
  { name := "ToolException", message := message }

/-- A normalized output fragment (`MessageContentComplex`): either a
`{type: "text", text}` or a `{type: "image_url", image_url: {url}}`. -/
inductive MessageContentComplex where
  | text (s : String)
  | imageUrl (url : String)
deriving Repr, DecidableEq

/-- Type `MessageContent`: either a bare string or a fragment list. -/
inductive MessageContent where
  | str (s : String)
  | list (l : List MessageContentComplex)
deriving Repr, DecidableEq

/-- Function `_embeddedResourceToArtifact`: resolve one resource block.  The
server connection is modelled by the pure read function
`read : uri → contents`; the second component of the result records the
sequence of `readResource` calls issued (their URIs, in order). -/
def _embeddedResourceToArtifact (read : String → List ResourceContents)
    (r : EmbeddedResource) : List EmbeddedResource × List String :=
  if ¬ jsTruthy r.blob ∧ ¬ jsTruthy r.text ∧ jsTruthy r.uri then
    let response := read r.resource.uri
    (response.map (fun c => { uri := none, text := none, blob := none, resource := c }),
      [r.resource.uri])
  else
    ([r], [])

/-- The filter `content.type === "text" || content.type === "image"`. -/
def isTextOrImage : ContentBlock → Bool
  | .text _ => true
  | .image _ _ => true
  | _ => false

/-- The filter `content.type === "resource"`. -/
def asResource : ContentBlock → Option EmbeddedResource
  | .resource r => some r
  | _ => none

/-- The `switch (content.type)` inside `_convertCallToolResult`'s map:
classify one text/image block, throwing on any other kind. -/
def classifyBlock (serverName toolName : String) :
    ContentBlock → Except ToolException MessageContentComplex
  | .text s => .ok (.text s)
  | .image mimeType data => .ok (.imageUrl s!"data:{mimeType};base64,{data}")
  | b =>
    .error (mkToolException
      s!"MCP tool {toolName} on server {serverName} returned an invalid result - expected a text or image content, but was {b.tag}")

/-- The `.map` carrying the classification `switch`: classify each
block left to right; the first thrown `ToolException` propagates,
aborting the traversal (JS exception semantics). -/
def classifyAll (serverName toolName : String) :
    List ContentBlock → Except ToolException (List MessageContentComplex)
  | [] => .ok []
  | b :: rest =>
    match classifyBlock serverName toolName b with
    | .error e => .error e
    | .ok frag =>
      match classifyAll serverName toolName rest with
      | .error e => .error e
      | .ok frags => .ok (frag :: frags)

/-- The artifact aggregation of `_convertCallToolResult`: resolve every
`resource` block (each resolution independent) and flatten the results
back in original block order. -/
def conversionArtifacts (read : String → List ResourceContents)
    (blocks : List ContentBlock) : List EmbeddedResource :=
  ((blocks.filterMap asResource).map
    (fun r => (_embeddedResourceToArtifact read r).1)).flatten

/-- Function `_convertCallToolResult`: validate the raw result, classify the
text/image blocks, resolve the resource blocks, and apply the
single-text normalization rule.  Resource reads go through `read`. -/
def _convertCallToolResult (serverName toolName : String) (result : RawResult)
    (read : String → List ResourceContents) :
    Except ToolException (MessageContent × List EmbeddedResource) :=
  match result with
  | .undef =>
    .error (mkToolException
      s!"MCP tool {toolName} on server {serverName} returned an invalid result - tool call response was undefined")
  | .mk content isError =>
    match content with
    | .nonArray typeName =>
      .error (mkToolException
        s!"MCP tool {toolName} on server {serverName} returned an invalid result - expected an array of content, but was {typeName}")
    | .arr blocks =>
      if isError then
        .error (mkToolException
          (s!"MCP tool {toolName} on server {serverName} returned an error: " ++
            String.intercalate "\n" (blocks.map ContentBlock.joinText)))
      else
        match classifyAll serverName toolName (blocks.filter isTextOrImage) with
        | .error e => .error e
        | .ok mcpTextAndImageContent =>
          let artifacts := conversionArtifacts read blocks
          match mcpTextAndImageContent with
          | [MessageContentComplex.text s] => .ok (.str s, artifacts)
          | frags => .ok (.list frags, artifacts)

/-- A JS exception value as observed by `_callTool`'s `catch`: either a
`ToolException` thrown inside this layer (the `instanceof` branch) or a
foreign error, of which only `String(error)` matters. -/
inductive JsError where
  | toolException (e : ToolException)
  | foreign (description : String)
deriving Repr, DecidableEq

/-- Rendering `String(error)`: an `Error` renders as `name + ": " + message`. -/
def JsError.str : JsError → String
  | .toolException e => e.name ++ ": " ++ e.message
  | .foreign d => d

/-- The outcome of the transport call `client.callTool(...)`: either it
raised, or it produced a raw result. -/
inductive TransportOutcome where
  | raised (e : JsError)
  | ok (result : RawResult)
deriving Repr, DecidableEq

/-- Function `_callTool`: perform one remote call (whose outcome is the input)
and convert its result.  A raised `ToolException` is rethrown unchanged;
any other raised error is wrapped; on transport success the result is
delegated to `_convertCallToolResult` unchanged. -/
def _callTool (serverName toolName : String)
    (read : String → List ResourceContents) (outcome : TransportOutcome) :
    Except ToolException (MessageContent × List EmbeddedResource) :=
  match outcome with
  | .raised (.toolException e) => .error e
  | .raised err =>
    .error (mkToolException s!"Error calling tool {toolName}: {err.str}")
  | .ok result => _convertCallToolResult serverName toolName result read

/-- A tool descriptor advertised by the server (`MCPTool`): on the wire
the `name`, `description` and `inputSchema` fields may each be absent. -/
structure MCPTool where
  name : Option String := none
  description : Option String := none
  inputSchema : Option String := none
deriving Repr, DecidableEq

/-- The schema argument handed to `JSONSchemaToZod.convert`: either the
declared input schema (kept opaque as a string) or the default
`{type: "object", properties: \x7b\x7d}` object used when none is
declared. -/
inductive JSONSchema where
  | declared (s : String)
  | emptyObject
deriving Repr, DecidableEq

/-- Expression `tool.inputSchema ?? {type: "object", properties: ...}`. -/
def schemaOf (t : MCPTool) : JSONSchema :=
  match t.inputSchema with
  | some s => .declared s
  | none => .emptyObject

/-- The locally constructed tool object (`DynamicStructuredTool`):
name, description, converted schema, the constant response format, and
the `(serverName, toolName)` pair captured by the bound invoker. -/
structure LocalTool where
  name : String
  description : String
  schema : String
  responseFormat : String
  boundServerName : String
  boundToolName : String
deriving Repr, DecidableEq

/-- Construction of one `DynamicStructuredTool` from a descriptor.  The
schema conversion `convert` (the black-box `JSONSchemaToZod.convert`)
may throw; its error propagates out of the constructor call. -/
def constructTool (convert : JSONSchema → Except ToolException String)
    (serverName : String) (t : MCPTool) : Except ToolException LocalTool :=
  match convert (schemaOf t) with
  | .error e => .error e
  | .ok schema =>
    .ok { name := t.name.getD ""
          description := t.description.getD ""
          schema := schema
          responseFormat := "content_and_artifact"
          boundServerName := serverName
          boundToolName := t.name.getD "" }

/-- The diagnostic trace recorded when a tool fails to load under the
lenient policy. -/
def failTrace (t : MCPTool) : String :=
  "ERROR: Failed to load tool \"" ++ t.name.getD "" ++ "\":"

/-- The `.map` with `try`/`catch` followed by `.filter(Boolean)` in
`loadMcpTools`: build each tool in order; a failure aborts the whole
traversal when `throwOnLoadError` is set, and is otherwise recorded as
a trace while the `null` placeholder is filtered away. -/
def loadEach (convert : JSONSchema → Except ToolException String)
    (serverName : String) (throwOnLoadError : Bool) :
    List MCPTool → Except ToolException (List LocalTool × List String)
  | [] => .ok ([], [])
  | t :: rest =>
    match constructTool convert serverName t with
    | .ok lt =>
      match loadEach convert serverName throwOnLoadError rest with
      | .error e => .error e
      | .ok (lts, traces) => .ok (lt :: lts, traces)
    | .error e =>
      if throwOnLoadError then .error e
      else
        match loadEach convert serverName throwOnLoadError rest with
        | .error e2 => .error e2
        | .ok (lts, traces) => .ok (lts, failTrace t :: traces)

/-- Function `loadMcpTools`: fetch the advertised tool list once (`listTools i`
is the response to the `i`-th call; the second component of the result
counts the calls issued), drop tools with an absent or empty name, and
construct the rest under the configured fail policy. -/
def loadMcpTools (convert : JSONSchema → Except ToolException String)
    (serverName : String) (listTools : Nat → Option (List MCPTool))
    (throwOnLoadError : Bool := true) :
    Except ToolException (List LocalTool × List String) × Nat :=
  let toolsResponse := listTools 0
  let calls := 1
  let named := (toolsResponse.getD []).filter (fun t => jsTruthy t.name)
  (loadEach convert serverName throwOnLoadError named, calls)

/-- The total classification function underlying `classifyBlock` on the
text/image blocks that reach it (the value is irrelevant elsewhere). -/
def classifyFragment : ContentBlock → MessageContentComplex
  | .text s => .text s
  | .image mimeType data => .imageUrl s!"data:{mimeType};base64,{data}"
  | _ => .text ""

/-- Blocks whose `type` tag is none of the three declared kinds. -/
def isOther : ContentBlock → Bool
  | .other _ _ => true
  | _ => false

/-- The `name` discriminator of a failed computation (`""` on success):
the only type-level information a catch clause can inspect without
reading the message. -/
def errName {α : Type} : Except ToolException α → String
  | .error e => e.name
  | .ok _ => ""

/-- Whether one tool descriptor constructs successfully. -/
def constructOk (convert : JSONSchema → Except ToolException String)
    (serverName : String) (t : MCPTool) : Bool :=
  match constructTool convert serverName t with
  | .ok _ => true
  | .error _ => false

/-- A concrete schema converter for witnesses: the schema string
`"badschema"` is unparseable, everything else converts. -/
def demoConvert : JSONSchema → Except ToolException String
  | .declared "badschema" => .error (mkToolException "unparseable schema")
  | .declared s => .ok s
  | .emptyObject => .ok "emptyObjectSchema"

/-- A concrete three-tool catalog for witnesses: the middle tool has an
unparseable schema. -/
def demoTools : List MCPTool :=
  [{ name := some "add", description := some "adds numbers", inputSchema := some "schemaA" },
   { name := some "bad", description := none, inputSchema := some "badschema" },
   { name := some "mul", description := none, inputSchema := none }]

theorem classifyAll_of_textOrImage (serverName toolName : String) :
    ∀ l : List ContentBlock, (∀ b ∈ l, isTextOrImage b = true) →
      classifyAll serverName toolName l = .ok (l.map classifyFragment) := by
  intro l
  induction l with
  | nil => intro _; rfl
  | cons b rest ih =>
    intro h
    have hb : isTextOrImage b = true := h b (List.mem_cons_self b rest)
    have hr := ih (fun x hx => h x (List.mem_cons_of_mem b hx))
    cases b with
    | text s => simp [classifyAll, classifyBlock, hr, classifyFragment]
    | image m d => simp [classifyAll, classifyBlock, hr, classifyFragment]
    | resource r => simp [isTextOrImage] at hb
    | other t tf => simp [isTextOrImage] at hb

theorem classifyAll_filter_ok (serverName toolName : String)
    (blocks : List ContentBlock) :
    classifyAll serverName toolName (blocks.filter isTextOrImage) =
      .ok ((blocks.filter isTextOrImage).map classifyFragment) :=
  classifyAll_of_textOrImage serverName toolName _
    (fun _ hb => List.of_mem_filter hb)

theorem convert_noError_eq (serverName toolName : String)
    (blocks : List ContentBlock) (read : String → List ResourceContents) :
    _convertCallToolResult serverName toolName
        (RawResult.mk (RawContent.arr blocks) false) read =
      (match (blocks.filter isTextOrImage).map classifyFragment with
       | [MessageContentComplex.text s] =>
         .ok (MessageContent.str s, conversionArtifacts read blocks)
       | frags => .ok (MessageContent.list frags, conversionArtifacts read blocks)) := by
  simp [_convertCallToolResult, classifyAll_filter_ok]

/-- C2: for every call result with `isError=true` and an array content,
conversion fails with an upstream-tool error (a `ToolException`) whose
message is the newline-join of each content block's `text` — a block
lacking a `text` field contributes the empty string — for any block
count, the empty list yielding an empty joined message; the blocks are
never shape-validated in this branch (the equation holds for arbitrary
block lists, including unrecognized kinds). -/
theorem isError_upstream_message (serverName toolName : String)
    (blocks : List ContentBlock) (read : String → List ResourceContents) :
    _convertCallToolResult serverName toolName
        (RawResult.mk (RawContent.arr blocks) true) read =
      .error (mkToolException
        (s!"MCP tool {toolName} on server {serverName} returned an error: " ++
          String.intercalate "\n" (blocks.map ContentBlock.joinText))) := rfl

/-- C6: validation order of the Result Converter — a missing result
fails first with the invalid-result error stating the response was
undefined, and a non-array `content` fails with the invalid-result
error naming the observed type, regardless of the `isError` flag
(which is inspected only afterwards). -/
theorem resultConverter_validation_order (serverName toolName : String)
    (read : String → List ResourceContents) :
    (_convertCallToolResult serverName toolName RawResult.undef read =
      .error (mkToolException
        s!"MCP tool {toolName} on server {serverName} returned an invalid result - tool call response was undefined")) ∧
    (∀ (typeName : String) (isError : Bool),
      _convertCallToolResult serverName toolName
          (RawResult.mk (RawContent.nonArray typeName) isError) read =
        .error (mkToolException
          s!"MCP tool {toolName} on server {serverName} returned an invalid result - expected an array of content, but was {typeName}")) :=
  ⟨rfl, fun _ _ => rfl⟩

/-- C8: the Content Classifier maps a text block to a `text` fragment
carrying the text verbatim and an image block to an `image_url`
fragment whose URL is the data URI `data:<mimeType>;base64,<data>`,
the base64 payload passed through unvalidated; in particular
`mimeType="image/png"`, `data="QQ=="` yields
`data:image/png;base64,QQ==`. -/
theorem contentClassifier_fragments (serverName toolName : String) :
    (∀ s, classifyBlock serverName toolName (ContentBlock.text s) =
      .ok (MessageContentComplex.text s)) ∧
    (∀ mimeType data,
      classifyBlock serverName toolName (ContentBlock.image mimeType data) =
        .ok (MessageContentComplex.imageUrl
          ("data:" ++ mimeType ++ ";base64," ++ data))) ∧
    classifyBlock serverName toolName (ContentBlock.image "image/png" "QQ==") =
      .ok (MessageContentComplex.imageUrl "data:image/png;base64,QQ==") := by
  refine ⟨fun s => rfl, fun m d => ?_, rfl⟩
  simp [classifyBlock, String.append_empty, toString]

/-- C3: the Embedded-Resource Resolver returns a block unchanged as a
single-element sequence with no read call when the block carries a
(truthy) `blob` or `text` or no (truthy) `uri`; when it carries only a
`uri`, exactly one read call is issued (for the inner `resource.uri`)
and the response parts are each re-wrapped as resource blocks in
response order. -/
theorem embeddedResource_resolver_cases
    (read : String → List ResourceContents) (r : EmbeddedResource) :
    (jsTruthy r.blob = true ∨ jsTruthy r.text = true ∨ jsTruthy r.uri = false →
      _embeddedResourceToArtifact read r = ([r], [])) ∧
    (jsTruthy r.blob = false → jsTruthy r.text = false → jsTruthy r.uri = true →
      _embeddedResourceToArtifact read r =
        ((read r.resource.uri).map
          (fun c => { uri := none, text := none, blob := none, resource := c }),
          [r.resource.uri])) := by
  constructor
  · intro h
    rcases h with h | h | h <;> simp [_embeddedResourceToArtifact, h]
  · intro h1 h2 h3
    simp [_embeddedResourceToArtifact, h1, h2, h3]

/-- Witness for C3: a reference-only block triggers one read of the
inner URI; an inline-text block passes through with no read. -/
theorem embeddedResource_resolver_cases_witness :
    (_embeddedResourceToArtifact
        (fun u => [{ uri := u, text := some "T", blob := none }])
        { uri := some "file:outer", text := none, blob := none,
          resource := { uri := "file:inner" } } =
      (([{ uri := "file:inner", text := some "T", blob := none }] :
          List ResourceContents).map
        (fun c => { uri := none, text := none, blob := none, resource := c }),
        ["file:inner"])) ∧
    (_embeddedResourceToArtifact (fun _ => [])
        { uri := some "file:outer", text := some "inline", blob := none,
          resource := { uri := "file:inner" } } =
      ([{ uri := some "file:outer", text := some "inline", blob := none,
          resource := { uri := "file:inner" } }], [])) :=
  ⟨(embeddedResource_resolver_cases _ _).2 rfl rfl rfl,
   (embeddedResource_resolver_cases _ _).1 (Or.inr (Or.inl rfl))⟩

/-- C4: the Tool Invoker rethrows an internally raised `ToolException`
unchanged, wraps any other raised transport error as an invocation
`ToolException` prefixed `Error calling tool <name>: `, and on
transport success delegates to the Result Converter and returns its
output unchanged. -/
theorem toolInvoker_error_translation (serverName toolName : String)
    (read : String → List ResourceContents) :
    (∀ e : ToolException,
      _callTool serverName toolName read
          (TransportOutcome.raised (JsError.toolException e)) = .error e) ∧
    (∀ d : String,
      _callTool serverName toolName read
          (TransportOutcome.raised (JsError.foreign d)) =
        .error (mkToolException ("Error calling tool " ++ toolName ++ ": " ++ d))) ∧
    (∀ result : RawResult,
      _callTool serverName toolName read (TransportOutcome.ok result) =
        _convertCallToolResult serverName toolName result read) := by
  refine ⟨fun e => rfl, fun d => ?_, fun result => rfl⟩
  simp [_callTool, JsError.str, mkToolException, String.append_empty, toString]

/-- C1: for a non-error result whose content passes shape validation,
when the classified text/image fragment sequence is exactly one `text`
fragment the primary content is that fragment's raw string; in every
other case (zero fragments, several fragments, or a single non-text
fragment) it is the full ordered fragment sequence, never a bare
string. -/
theorem resultConverter_normalization (serverName toolName : String)
    (blocks : List ContentBlock) (read : String → List ResourceContents)
    (frags : List MessageContentComplex)
    (h : classifyAll serverName toolName (blocks.filter isTextOrImage) = .ok frags) :
    (∀ s, frags = [MessageContentComplex.text s] →
      _convertCallToolResult serverName toolName
          (RawResult.mk (RawContent.arr blocks) false) read =
        .ok (MessageContent.str s, conversionArtifacts read blocks)) ∧
    ((∀ s, frags ≠ [MessageContentComplex.text s]) →
      _convertCallToolResult serverName toolName
          (RawResult.mk (RawContent.arr blocks) false) read =
        .ok (MessageContent.list frags, conversionArtifacts read blocks)) := by
  constructor
  · rintro s rfl
    simp [_convertCallToolResult, h]
  · intro hn
    simp only [_convertCallToolResult, h]
    match frags, hn with
    | [], _ => rfl
    | [MessageContentComplex.text s], hn => exact absurd rfl (hn s)
    | [MessageContentComplex.imageUrl u], _ => rfl
    | f1 :: f2 :: rest, _ => rfl

/-- Witness for C1: a single text block `"5"` yields the bare string
`"5"`; a single image block yields a one-fragment list, not a string. -/
theorem resultConverter_normalization_witness :
    (_convertCallToolResult "srv" "tool"
        (RawResult.mk (RawContent.arr [ContentBlock.text "5"]) false)
        (fun _ => []) =
      .ok (MessageContent.str "5",
        conversionArtifacts (fun _ => []) [ContentBlock.text "5"])) ∧
    (_convertCallToolResult "srv" "tool"
        (RawResult.mk (RawContent.arr [ContentBlock.image "image/png" "QQ=="]) false)
        (fun _ => []) =
      .ok (MessageContent.list
            [MessageContentComplex.imageUrl "data:image/png;base64,QQ=="],
        conversionArtifacts (fun _ => [])
          [ContentBlock.image "image/png" "QQ=="])) :=
  ⟨(resultConverter_normalization "srv" "tool" [ContentBlock.text "5"]
      (fun _ => []) [MessageContentComplex.text "5"] rfl).1 "5" rfl,
   (resultConverter_normalization "srv" "tool"
      [ContentBlock.image "image/png" "QQ=="] (fun _ => [])
      [MessageContentComplex.imageUrl "data:image/png;base64,QQ=="] rfl).2
     (fun s hs => by simp at hs)⟩

theorem isOther_text (s : String) : isOther (ContentBlock.text s) = false := rfl

theorem isOther_image (m d : String) : isOther (ContentBlock.image m d) = false := rfl

theorem isOther_resource (r : EmbeddedResource) :
    isOther (ContentBlock.resource r) = false := rfl

theorem isOther_other (t : String) (tf : Option String) :
    isOther (ContentBlock.other t tf) = true := rfl

theorem asResource_text (s : String) : asResource (ContentBlock.text s) = none := rfl

theorem asResource_image (m d : String) :
    asResource (ContentBlock.image m d) = none := rfl

theorem asResource_resource (r : EmbeddedResource) :
    asResource (ContentBlock.resource r) = some r := rfl

theorem asResource_other (t : String) (tf : Option String) :
    asResource (ContentBlock.other t tf) = none := rfl

theorem isTextOrImage_text (s : String) :
    isTextOrImage (ContentBlock.text s) = true := rfl

theorem isTextOrImage_image (m d : String) :
    isTextOrImage (ContentBlock.image m d) = true := rfl

theorem isTextOrImage_resource (r : EmbeddedResource) :
    isTextOrImage (ContentBlock.resource r) = false := rfl

theorem isTextOrImage_other (t : String) (tf : Option String) :
    isTextOrImage (ContentBlock.other t tf) = false := rfl

theorem filter_textOrImage_dropOther (blocks : List ContentBlock) :
    (blocks.filter (fun b => !(isOther b))).filter isTextOrImage =
      blocks.filter isTextOrImage := by
  induction blocks with
  | nil => rfl
  | cons b rest ih =>
    cases b with
    | text s =>
      simp only [List.filter_cons, isOther_text, isTextOrImage_text, Bool.not_false,
        if_true, ih]
    | image m d =>
      simp only [List.filter_cons, isOther_image, isTextOrImage_image, Bool.not_false,
        if_true, ih]
    | resource r =>
      simp [List.filter_cons, isOther_resource, isTextOrImage_resource, ih]
    | other t tf =>
      simp [List.filter_cons, isOther_other, isTextOrImage_other, ih]

theorem filterMap_asResource_dropOther (blocks : List ContentBlock) :
    (blocks.filter (fun b => !(isOther b))).filterMap asResource =
      blocks.filterMap asResource := by
  induction blocks with
  | nil => rfl
  | cons b rest ih =>
    cases b with
    | text s =>
      simp only [List.filter_cons, List.filterMap_cons, isOther_text,
        asResource_text, Bool.not_false, if_true, ih]
    | image m d =>
      simp only [List.filter_cons, List.filterMap_cons, isOther_image,
        asResource_image, Bool.not_false, if_true, ih]
    | resource r =>
      simp only [List.filter_cons, List.filterMap_cons, isOther_resource,
        asResource_resource, Bool.not_false, if_true, ih]
    | other t tf =>
      simp [List.filter_cons, List.filterMap_cons, isOther_other, asResource_other, ih]

/-- C10: in a valid non-error result, content blocks of an unrecognized
kind are silently dropped — removing them leaves the conversion output
unchanged, the conversion always succeeds, and the classifier's
unrecognized-kind error branch is unreachable (classification of the
filtered blocks never fails). -/
theorem unknownKinds_silently_dropped (serverName toolName : String)
    (blocks : List ContentBlock) (read : String → List ResourceContents) :
    (_convertCallToolResult serverName toolName
        (RawResult.mk (RawContent.arr blocks) false) read =
      _convertCallToolResult serverName toolName
        (RawResult.mk (RawContent.arr (blocks.filter (fun b => !(isOther b)))) false)
        read) ∧
    (∃ out, _convertCallToolResult serverName toolName
        (RawResult.mk (RawContent.arr blocks) false) read = .ok out) ∧
    (∀ e, classifyAll serverName toolName (blocks.filter isTextOrImage) ≠
      Except.error e) := by
  refine ⟨?_, ?_, ?_⟩
  · rw [convert_noError_eq, convert_noError_eq, filter_textOrImage_dropOther]
    have harts : conversionArtifacts read (blocks.filter (fun b => !(isOther b))) =
        conversionArtifacts read blocks := by
      simp only [conversionArtifacts, filterMap_asResource_dropOther]
    rw [harts]
  · rw [convert_noError_eq]
    cases hm : (blocks.filter isTextOrImage).map classifyFragment with
    | nil =>
      exact ⟨(MessageContent.list [], conversionArtifacts read blocks), rfl⟩
    | cons f1 tl =>
      cases tl with
      | nil =>
        cases f1 with
        | text s =>
          exact ⟨(MessageContent.str s, conversionArtifacts read blocks), rfl⟩
        | imageUrl u =>
          exact ⟨(MessageContent.list [MessageContentComplex.imageUrl u],
            conversionArtifacts read blocks), rfl⟩
      | cons f2 tl2 =>
        cases f1 with
        | text s =>
          exact ⟨(MessageContent.list (MessageContentComplex.text s :: f2 :: tl2),
            conversionArtifacts read blocks), rfl⟩
        | imageUrl u =>
          exact ⟨(MessageContent.list (MessageContentComplex.imageUrl u :: f2 :: tl2),
            conversionArtifacts read blocks), rfl⟩
  · intro e
    simp [classifyAll_filter_ok]

/-- Witness for C10: an unrecognized `audio` block beside a text block
changes nothing — the result equals the conversion of the same content
with the unknown block removed, and no error is raised. -/
theorem unknownKinds_silently_dropped_witness :
    _convertCallToolResult "srv" "tool"
        (RawResult.mk (RawContent.arr
          [ContentBlock.text "a", ContentBlock.other "audio" none]) false)
        (fun _ => []) =
      _convertCallToolResult "srv" "tool"
        (RawResult.mk (RawContent.arr
          ([ContentBlock.text "a", ContentBlock.other "audio" none].filter
            (fun b => !(isOther b)))) false)
        (fun _ => []) :=
  (unknownKinds_silently_dropped "srv" "tool"
    [ContentBlock.text "a", ContentBlock.other "audio" none] (fun _ => [])).1

/-- Counterexample for C7: an upstream-tool error (`isError=true`) and
an invalid-result error (missing result) are both raised as a
`ToolException` with the identical `name` discriminator
`"ToolException"` — the only non-message information a caller could
inspect — so the two kinds cannot be told apart without string
matching on the message. -/
theorem errorKinds_share_name_counterexample :
    (_convertCallToolResult "srv" "tool"
        (RawResult.mk (RawContent.arr [ContentBlock.text "boom"]) true)
        (fun _ => []) =
      .error (mkToolException
        "MCP tool tool on server srv returned an error: boom")) ∧
    (_convertCallToolResult "srv" "tool" RawResult.undef (fun _ => []) =
      .error (mkToolException
        "MCP tool tool on server srv returned an invalid result - tool call response was undefined")) ∧
    errName (_convertCallToolResult "srv" "tool"
        (RawResult.mk (RawContent.arr [ContentBlock.text "boom"]) true)
        (fun _ => [])) =
      errName (_convertCallToolResult "srv" "tool" RawResult.undef
        (fun _ => [])) :=
  ⟨rfl, rfl, rfl⟩

/-- C7 (amended): every error raised in the conversion path, and every
transport error wrapped by the invoker, is a `ToolException` whose
`name` is the single constant `"ToolException"`; the layer's errors are
thereby distinguishable from foreign errors, but the upstream-tool,
invocation and invalid-result kinds share that one type and differ only
in their message text. -/
theorem toolException_uniform_name (serverName toolName : String)
    (read : String → List ResourceContents) :
    (∀ result e, _convertCallToolResult serverName toolName result read =
        .error e → e.name = "ToolException") ∧
    (∀ d e, _callTool serverName toolName read
        (TransportOutcome.raised (JsError.foreign d)) = .error e →
      e.name = "ToolException") := by
  constructor
  · intro result e h
    match result with
    | RawResult.undef =>
      simp only [_convertCallToolResult, Except.error.injEq] at h
      rw [← h]; rfl
    | RawResult.mk (RawContent.nonArray t) isError =>
      simp only [_convertCallToolResult, Except.error.injEq] at h
      rw [← h]; rfl
    | RawResult.mk (RawContent.arr blocks) true =>
      simp only [_convertCallToolResult, if_true, Except.error.injEq] at h
      rw [← h]; rfl
    | RawResult.mk (RawContent.arr blocks) false =>
      rw [convert_noError_eq] at h
      revert h
      match (blocks.filter isTextOrImage).map classifyFragment with
      | [] => intro h; exact absurd h (by simp)
      | [MessageContentComplex.text s] => intro h; exact absurd h (by simp)
      | [MessageContentComplex.imageUrl u] => intro h; exact absurd h (by simp)
      | f1 :: f2 :: rest => intro h; exact absurd h (by simp)
  · intro d e h
    simp only [_callTool, Except.error.injEq] at h
    rw [← h]; rfl

/-- Witness for C7 (amended): the concrete invalid-result error carries
the name `"ToolException"`. -/
theorem toolException_uniform_name_witness :
    (mkToolException
      "MCP tool tool on server srv returned an invalid result - tool call response was undefined").name =
      "ToolException" :=
  (toolException_uniform_name "srv" "tool" (fun _ => [])).1 RawResult.undef _ rfl

theorem loadEach_lenient_eq (convert : JSONSchema → Except ToolException String)
    (serverName : String) :
    ∀ ts : List MCPTool,
      loadEach convert serverName false ts =
        .ok (ts.filterMap (fun t => (constructTool convert serverName t).toOption),
          (ts.filter (fun t => !(constructOk convert serverName t))).map failTrace) := by
  intro ts
  induction ts with
  | nil => rfl
  | cons t rest ih =>
    cases hct : constructTool convert serverName t with
    | ok lt =>
      have hok : constructOk convert serverName t = true := by
        simp [constructOk, hct]
      simp [loadEach, hct, ih, List.filterMap_cons, List.filter_cons, hok,
        Except.toOption]
    | error e =>
      have hok : constructOk convert serverName t = false := by
        simp [constructOk, hct]
      simp [loadEach, hct, ih, List.filterMap_cons, List.filter_cons, hok,
        Except.toOption]

theorem loadEach_strict_aborts (convert : JSONSchema → Except ToolException String)
    (serverName : String) :
    ∀ ts : List MCPTool, (∃ t ∈ ts, constructOk convert serverName t = false) →
      ∃ e, loadEach convert serverName true ts = .error e := by
  intro ts
  induction ts with
  | nil =>
    rintro ⟨t, ht, _⟩
    exact absurd ht (List.not_mem_nil t)
  | cons t rest ih =>
    rintro ⟨t0, ht0, hfail⟩
    cases hct : constructTool convert serverName t with
    | error e => exact ⟨e, by simp [loadEach, hct]⟩
    | ok lt =>
      rcases List.mem_cons.mp ht0 with rfl | hmem
      · exact absurd hfail (by simp [constructOk, hct])
      · obtain ⟨e, he⟩ := ih ⟨t0, hmem, hfail⟩
        exact ⟨e, by simp [loadEach, hct, he]⟩

/-- C5: when some per-tool construction fails, the strict policy aborts
the whole load with a propagated error (no partial list is returned),
while the lenient policy returns exactly the successfully constructed
tools and records one diagnostic trace per dropped tool, in order. -/
theorem loadTools_failPolicy
    (convert : JSONSchema → Except ToolException String) (serverName : String)
    (listTools : Nat → Option (List MCPTool)) (named : List MCPTool)
    (hnamed : named = ((listTools 0).getD []).filter (fun t => jsTruthy t.name)) :
    ((loadMcpTools convert serverName listTools false).1 =
      .ok (named.filterMap (fun t => (constructTool convert serverName t).toOption),
        (named.filter (fun t => !(constructOk convert serverName t))).map failTrace)) ∧
    ((∃ t ∈ named, constructOk convert serverName t = false) →
      ∃ e, (loadMcpTools convert serverName listTools true).1 = Except.error e) := by
  subst hnamed
  constructor
  · exact loadEach_lenient_eq convert serverName _
  · intro hex
    obtain ⟨e, he⟩ := loadEach_strict_aborts convert serverName _ hex
    exact ⟨e, he⟩

/-- Witness for C5: of three advertised tools the middle one has an
unparseable schema; the lenient load yields exactly the other two tools
plus one recorded failure trace, the strict load propagates an error. -/
theorem loadTools_failPolicy_witness :
    ((loadMcpTools demoConvert "srv" (fun _ => some demoTools) false).1 =
      .ok ([{ name := "add", description := "adds numbers", schema := "schemaA",
              responseFormat := "content_and_artifact", boundServerName := "srv",
              boundToolName := "add" },
            { name := "mul", description := "", schema := "emptyObjectSchema",
              responseFormat := "content_and_artifact", boundServerName := "srv",
              boundToolName := "mul" }],
        ["ERROR: Failed to load tool \"bad\":"])) ∧
    (∃ e, (loadMcpTools demoConvert "srv" (fun _ => some demoTools) true).1 =
      Except.error e) := by
  have h := loadTools_failPolicy demoConvert "srv" (fun _ => some demoTools)
    (demoTools.filter (fun t => jsTruthy t.name)) rfl
  refine ⟨?_,
    h.2 ⟨(⟨some "bad", none, some "badschema"⟩ : MCPTool), by decide, by decide⟩⟩
  rw [h.1]
  rfl

/-- C9: an advertised tool with an absent or empty name is discarded
silently — the load over a catalog containing it equals the load over
the catalog without it, error or not — and the tool list is fetched by
exactly one `listTools` call per load. -/
theorem loader_name_filtering
    (convert : JSONSchema → Except ToolException String) (serverName : String)
    (b : Bool) (pre post : List MCPTool) (bad : MCPTool)
    (h : jsTruthy bad.name = false) :
    loadMcpTools convert serverName (fun _ => some (pre ++ bad :: post)) b =
      loadMcpTools convert serverName (fun _ => some (pre ++ post)) b ∧
    (loadMcpTools convert serverName (fun _ => some (pre ++ bad :: post)) b).2 = 1 := by
  constructor
  · simp [loadMcpTools, List.filter_append, List.filter_cons, h]
  · rfl

/-- Witness for C9: a nameless descriptor in a two-entry catalog is
silently excluded; the load equals the one-entry load and issues one
list call. -/
theorem loader_name_filtering_witness :
    (loadMcpTools demoConvert "srv"
        (fun _ => some ([(⟨some "add", some "adds numbers", some "schemaA"⟩ : MCPTool)] ++
          (⟨none, none, none⟩ : MCPTool) :: [])) true =
      loadMcpTools demoConvert "srv"
        (fun _ => some ([(⟨some "add", some "adds numbers", some "schemaA"⟩ : MCPTool)] ++ []))
        true) ∧
    (loadMcpTools demoConvert "srv"
        (fun _ => some ([(⟨some "add", some "adds numbers", some "schemaA"⟩ : MCPTool)] ++
          (⟨none, none, none⟩ : MCPTool) :: [])) true).2 = 1 :=
  loader_name_filtering demoConvert "srv" true
    [⟨some "add", some "adds numbers", some "schemaA"⟩] [] ⟨none, none, none⟩ rfl

end McpAdapters
